import Mathlib

/-!
Shallow embedding of the query poller and name-resolution helpers of
`src/api/client.py` (class `Rapid7Client`), together with proofs of the
behavioural properties stated in the specification.

Modelling conventions:
* A JSON response page is a `Page`: its HTTP status, the optional `progress`
  field, the optional `events` array, the optional `statistics` field (outer
  `Option` is key presence, inner `Option` is JSON `null` versus a value),
  the `links` array reduced to its list of `href` strings (absent and empty
  collapse, exactly as `'links' in data and data['links']` does), and the raw
  response text used in error messages.
* The HTTP transport is a trace: a list of pages consumed in order, one per
  `make_request` call.  The wall clock is a list of elapsed-time readings,
  one per Phase-1 timeout check.  Exhausting either trace yields the
  distinguished `Outcome.outOfFuel`, meaning the real execution would have
  interacted further.
* Event and statistics payloads are type parameters `ε` and `σ`; Python
  truthiness of a statistics value (used only in the final return statement)
  is supplied as a function in the configuration.
* Ghost fields (`consumed`, `merged`, `requests`, `sleeps`, …) record the
  observable interaction so the theorems can speak about it; they do not
  influence control flow.
-/

namespace R7

/-- One JSON response body together with its HTTP status, as consumed by
`poll_query` in `src/api/client.py`. -/
structure Page (ε σ : Type) where
  status : Nat
  progress : Option Int := none
  events : Option (List ε) := none
  statistics : Option (Option σ) := none
  links : List String := []
  text : String := ""
deriving DecidableEq, Repr

/-- The mutable `accumulated_data` dictionary: `{'events': [], 'statistics': None}`. -/
structure Accum (ε σ : Type) where
  events : List ε := []
  statistics : Option σ := none
deriving DecidableEq, Repr

/-- Initial accumulator, client.py line 109. -/
def emptyAccum {ε σ : Type} : Accum ε σ := {}

/-- Merging one page into the accumulator: `extend` on `events` when the key
is present, plain overwrite of `statistics` when the key is present
(client.py lines 146-149, 165-168, 196-199, 212-215). -/
def mergePage {ε σ : Type} (acc : Accum ε σ) (p : Page ε σ) : Accum ε σ :=
  { events := acc.events ++ p.events.getD [],
    statistics := match p.statistics with
      | none => acc.statistics
      | some v => v }

/-- The status check `response.status_code in (200, 202)`. -/
def statusOk {ε σ : Type} (p : Page ε σ) : Bool :=
  p.status == 200 || p.status == 202

/-- The still-processing test `query_progress < 100 and response.status_code == 202`,
with `query_progress = data.get('progress', 100)` (client.py lines 139-140, 191-192). -/
def stillProcessing {ε σ : Type} (p : Page ε σ) : Bool :=
  decide (p.progress.getD 100 < 100) && (p.status == 202)

/-- The Phase-2 loop condition
`'links' in data and data['links'] and (max_result_pages is None or result_pages < max_result_pages)`
(client.py lines 153 and 202). -/
def phase2Cond {ε σ : Type} (k : Option Int) (pages : Nat) (data : Page ε σ) : Bool :=
  !data.links.isEmpty &&
    (match k with
      | none => true
      | some kv => decide ((pages : Int) < kv))

/-- Result of the Phase-2 pagination loop: final accumulator, final `data`
binding, pages consumed and merged in order, final `result_pages` counter,
requested URLs, sleep durations, the page that caused a raised
`APIError` (if any), and whether the response trace ran out mid-loop. -/
structure P2Out (ε σ : Type) where
  acc : Accum ε σ
  data : Page ε σ
  consumed : List (Page ε σ)
  merged : List (Page ε σ)
  pages : Nat
  requests : List String
  sleeps : List Nat
  err : Option (Page ε σ)
  fuelOut : Bool
deriving DecidableEq, Repr

/-- Phase 2 of `poll_query` (client.py lines 152-168 and 201-215): while the
current page has links and the page budget allows, fetch `links[0].href`
after a one-second sleep, fail on a bad status, otherwise merge and continue. -/
def phase2 {ε σ : Type} (k : Option Int) (acc : Accum ε σ) (data : Page ε σ)
    (pages : Nat) : List (Page ε σ) → P2Out ε σ
  | [] =>
    if phase2Cond k pages data then
      ⟨acc, data, [], [], pages, [], [], none, true⟩
    else
      ⟨acc, data, [], [], pages, [], [], none, false⟩
  | p :: rest =>
    if phase2Cond k pages data then
      if statusOk p then
        let o := phase2 k (mergePage acc p) p (pages + 1) rest
        { o with
          consumed := p :: o.consumed
          merged := p :: o.merged
          requests := data.links.headD "" :: o.requests
          sleeps := 1 :: o.sleeps }
      else
        ⟨acc, data, [p], [], pages + 1, [data.links.headD ""], [1], some p, false⟩
    else
      ⟨acc, data, [], [], pages, [], [], none, false⟩

/-- The value produced by the final return statement (client.py line 218):
either the accumulator or the raw last-fetched page body. -/
inductive RetVal (ε σ : Type) where
  | acc (a : Accum ε σ)
  | raw (p : Page ε σ)
deriving DecidableEq, Repr

/-- How one call to `poll_query` ends.  `apiError inPagination p` is the
raised `APIError` carrying `p.status` and `p.text`; `unboundLocal` is the
`UnboundLocalError` raised by the return statement when `data` was never
assigned; `outOfFuel` means the supplied traces were too short to decide. -/
inductive Outcome (ε σ : Type) where
  | ok (v : RetVal ε σ)
  | apiError (inPagination : Bool) (p : Page ε σ)
  | unboundLocal
  | outOfFuel
deriving DecidableEq, Repr

/-- Complete observable record of one `poll_query` call. -/
structure Run (ε σ : Type) where
  outcome : Outcome ε σ
  acc : Accum ε σ
  consumed : List (Page ε σ)
  merged : List (Page ε σ)
  completionPage : Option (Page ε σ)
  phase2Fetches : Nat
  timedOut : Bool
  requests : List String
  sleeps : List Nat
  finalData : Option (Page ε σ)
deriving DecidableEq, Repr

/-- Call parameters of `poll_query` (client.py line 107), plus the Python
truthiness of a non-null statistics value, needed by the return statement. -/
structure Config (σ : Type) where
  url : String
  maxResultPages : Option Int := none
  queryTimeout : Int := 300
  sTruthy : σ → Bool

/-- Python truthiness of `accumulated_data['events'] or accumulated_data['statistics']`. -/
def accTruthy {ε σ : Type} (cfg : Config σ) (a : Accum ε σ) : Bool :=
  !a.events.isEmpty ||
    (match a.statistics with
      | none => false
      | some s => cfg.sTruthy s)

/-- The return statement of `poll_query` (client.py line 218):
`return accumulated_data if accumulated_data['events'] or accumulated_data['statistics'] else data`.
If `data` was never bound, Python raises `UnboundLocalError`. -/
def mkRet {ε σ : Type} (cfg : Config σ) (a : Accum ε σ) (lastData : Option (Page ε σ)) :
    Outcome ε σ :=
  if accTruthy cfg a then .ok (.acc a)
  else
    match lastData with
    | some d => .ok (.raw d)
    | none => .unboundLocal

/-- Phase 1 of `poll_query` (client.py lines 123-174 and 178-216, quiet
variant; the progress variant is `phase1Show` below): each iteration checks
the soft timeout, fetches `poll_url`, fails on a bad status, rebinds
`poll_url` from a non-empty `links`, loops while still processing, and
otherwise merges the completion page and runs Phase 2 before breaking. -/
def phase1 {ε σ : Type} (cfg : Config σ) (pollUrl : String)
    (lastData : Option (Page ε σ)) :
    List Int → List (Page ε σ) → Run ε σ
  | [], _ =>
    { outcome := .outOfFuel, acc := emptyAccum, consumed := [], merged := [],
      completionPage := none, phase2Fetches := 0, timedOut := false,
      requests := [], sleeps := [], finalData := lastData }
  | c :: clocks, resps =>
    if cfg.queryTimeout < c then
      { outcome := mkRet cfg emptyAccum lastData, acc := emptyAccum,
        consumed := [], merged := [], completionPage := none,
        phase2Fetches := 0, timedOut := true, requests := [], sleeps := [],
        finalData := lastData }
    else
      match resps with
      | [] =>
        { outcome := .outOfFuel, acc := emptyAccum, consumed := [],
          merged := [], completionPage := none, phase2Fetches := 0,
          timedOut := false, requests := [], sleeps := [],
          finalData := lastData }
      | p :: rest =>
        if statusOk p then
          let pollUrl' := if p.links.isEmpty then pollUrl else p.links.headD ""
          if stillProcessing p then
            let r := phase1 cfg pollUrl' (some p) clocks rest
            { r with
              consumed := p :: r.consumed
              requests := pollUrl :: r.requests
              sleeps := 2 :: r.sleeps }
          else
            let o := phase2 cfg.maxResultPages (mergePage emptyAccum p) p 0 rest
            { outcome :=
                match o.err with
                | some q => .apiError true q
                | none => if o.fuelOut then .outOfFuel else mkRet cfg o.acc (some o.data),
              acc := o.acc, consumed := p :: o.consumed, merged := p :: o.merged,
              completionPage := some p, phase2Fetches := o.pages,
              timedOut := false, requests := pollUrl :: o.requests,
              sleeps := o.sleeps, finalData := some o.data }
        else
          { outcome := .apiError false p, acc := emptyAccum, consumed := [p],
            merged := [], completionPage := none, phase2Fetches := 0,
            timedOut := false, requests := [pollUrl], sleeps := [],
            finalData := lastData }

/-- The `show_progress=False` branch of `poll_query` (client.py lines 175-216). -/
def poll_query_plain_branch {ε σ : Type} (cfg : Config σ) (clocks : List Int)
    (resps : List (Page ε σ)) : Run ε σ :=
  phase1 cfg cfg.url none clocks resps

/-- Messages the `show_progress=True` branch writes to the rich progress
sink (`progress.add_task` / `progress.update` calls, client.py lines
119-173), abstracted from their f-string formatting. -/
inductive Msg where
  | waiting
  | timeoutAfter (t : Int)
  | processing (pct : Int)
  | fetchingPage (n : Nat) (evCount : Nat)
  | retrievedPages (n : Nat) (evCount : Nat)
  | completedWith (evCount : Nat)
deriving DecidableEq, Repr

/-- Phase 2 of the `show_progress=True` branch (client.py lines 152-168):
identical to `phase2` except for the progress update emitted at the top of
each iteration, before the fetch. -/
def phase2Show {ε σ : Type} (k : Option Int) (acc : Accum ε σ) (data : Page ε σ)
    (pages : Nat) : List (Page ε σ) → P2Out ε σ × List Msg
  | [] =>
    if phase2Cond k pages data then
      (⟨acc, data, [], [], pages, [], [], none, true⟩,
        [Msg.fetchingPage (pages + 1) acc.events.length])
    else
      (⟨acc, data, [], [], pages, [], [], none, false⟩, [])
  | p :: rest =>
    if phase2Cond k pages data then
      if statusOk p then
        let r := phase2Show k (mergePage acc p) p (pages + 1) rest
        ({ r.1 with
            consumed := p :: r.1.consumed
            merged := p :: r.1.merged
            requests := data.links.headD "" :: r.1.requests
            sleeps := 1 :: r.1.sleeps },
          Msg.fetchingPage (pages + 1) acc.events.length :: r.2)
      else
        (⟨acc, data, [p], [], pages + 1, [data.links.headD ""], [1], some p, false⟩,
          [Msg.fetchingPage (pages + 1) acc.events.length])
    else
      (⟨acc, data, [], [], pages, [], [], none, false⟩, [])

/-- The final progress message after the Phase-2 loop (client.py lines
170-173): distinguishes budget exhaustion from natural completion. -/
def finalMsg {ε σ : Type} (k : Option Int) (o : P2Out ε σ) : Msg :=
  match k with
  | some kv => if kv ≤ (o.pages : Int) then .retrievedPages o.pages o.acc.events.length
               else .completedWith o.acc.events.length
  | none => .completedWith o.acc.events.length

/-- Phase 1 of the `show_progress=True` branch (client.py lines 123-174):
identical to `phase1` except for the progress updates. -/
def phase1Show {ε σ : Type} (cfg : Config σ) (pollUrl : String)
    (lastData : Option (Page ε σ)) :
    List Int → List (Page ε σ) → Run ε σ × List Msg
  | [], _ =>
    ({ outcome := .outOfFuel, acc := emptyAccum, consumed := [], merged := [],
       completionPage := none, phase2Fetches := 0, timedOut := false,
       requests := [], sleeps := [], finalData := lastData }, [])
  | c :: clocks, resps =>
    if cfg.queryTimeout < c then
      ({ outcome := mkRet cfg emptyAccum lastData, acc := emptyAccum,
         consumed := [], merged := [], completionPage := none,
         phase2Fetches := 0, timedOut := true, requests := [], sleeps := [],
         finalData := lastData }, [Msg.timeoutAfter cfg.queryTimeout])
    else
      match resps with
      | [] =>
        ({ outcome := .outOfFuel, acc := emptyAccum, consumed := [],
           merged := [], completionPage := none, phase2Fetches := 0,
           timedOut := false, requests := [], sleeps := [],
           finalData := lastData }, [])
      | p :: rest =>
        if statusOk p then
          let pollUrl' := if p.links.isEmpty then pollUrl else p.links.headD ""
          if stillProcessing p then
            let r := phase1Show cfg pollUrl' (some p) clocks rest
            ({ r.1 with
                consumed := p :: r.1.consumed
                requests := pollUrl :: r.1.requests
                sleeps := 2 :: r.1.sleeps },
              Msg.processing (p.progress.getD 100) :: r.2)
          else
            let s := phase2Show cfg.maxResultPages (mergePage emptyAccum p) p 0 rest
            ({ outcome :=
                 match s.1.err with
                 | some q => .apiError true q
                 | none =>
                   if s.1.fuelOut then .outOfFuel else mkRet cfg s.1.acc (some s.1.data),
               acc := s.1.acc, consumed := p :: s.1.consumed,
               merged := p :: s.1.merged, completionPage := some p,
               phase2Fetches := s.1.pages, timedOut := false,
               requests := pollUrl :: s.1.requests, sleeps := s.1.sleeps,
               finalData := some s.1.data },
              s.2 ++ [finalMsg cfg.maxResultPages s.1])
        else
          ({ outcome := .apiError false p, acc := emptyAccum, consumed := [p],
             merged := [], completionPage := none, phase2Fetches := 0,
             timedOut := false, requests := [pollUrl], sleeps := [],
             finalData := lastData }, [])

/-- The `show_progress=True` branch of `poll_query` (client.py lines 112-174),
including the initial task description. -/
def poll_query_progress_branch {ε σ : Type} (cfg : Config σ) (clocks : List Int)
    (resps : List (Page ε σ)) : Run ε σ × List Msg :=
  let r := phase1Show cfg cfg.url none clocks resps
  (r.1, Msg.waiting :: r.2)

/-- `Rapid7Client.poll_query` (client.py lines 107-218): dispatches on
`show_progress` to the two textually duplicated branch implementations.
The second component is the list of progress messages emitted. -/
def poll_query {ε σ : Type} (cfg : Config σ) (show_progress : Bool)
    (clocks : List Int) (resps : List (Page ε σ)) : Run ε σ × List Msg :=
  if show_progress then poll_query_progress_branch cfg clocks resps
  else (poll_query_plain_branch cfg clocks resps, [])

/-- One `logsets_info` entry of a log listing entry; both fields read with
`.get`, hence optional (client.py lines 308-311). -/
structure LogsetInfo where
  lsId : Option String := none
  lsName : Option String := none
deriving DecidableEq, Repr

/-- One entry of `response.json()['logs']`: `id` and `name` are accessed by
subscript (assumed present), `logsets_info` via `.get(..., [])`. -/
structure LogEntry where
  entryId : String
  entryName : String
  logsets_info : List LogsetInfo := []
deriving DecidableEq, Repr

/-- Python's `str.lower()` (as applied by the resolution helpers),
modelled character-wise so it evaluates in the kernel; it agrees with
`String.toLower` on every string. -/
def pyLower (s : String) : String := ⟨s.data.map Char.toLower⟩

theorem pyLower_eq_toLower (s : String) : pyLower s = s.toLower := by
  show pyLower s = String.map Char.toLower s
  rw [String.map_eq]
  rfl

/-- The match list of `get_log_id_by_name` (client.py line 279):
`[log['id'] for log in logs if log['name'].lower() == name.lower()]`. -/
def logMatches (name : String) (logs : List LogEntry) : List String :=
  (logs.filter (fun l => pyLower l.entryName == pyLower name)).map (·.entryId)

/-- Errors raised by name resolution (`QueryError` in the source). -/
inductive LookupError where
  | notFound (name : String)
  | ambiguous (name : String)
deriving DecidableEq, Repr

/-- `Rapid7Client.get_log_id_by_name` (client.py lines 266-287), modelled on
the cache-miss path (`cache_manager is None`): zero matches raise the
not-found `QueryError`, more than one the ambiguity `QueryError`, otherwise
the single match is returned. -/
def get_log_id_by_name (name : String) (logs : List LogEntry) :
    Except LookupError String :=
  let ms := logMatches name logs
  if ms.isEmpty then .error (.notFound name)
  else if 1 < ms.length then .error (.ambiguous name)
  else .ok (ms.headD "")

/-- The distinct logset ids collected by `get_logset_id_by_name` (client.py
lines 304-311): every `logsets_info` entry over every log whose (defaulted)
name matches case-insensitively contributes `logset.get('id')` to a Python
set; `dedup` models the set's distinctness. -/
def logsetMatches (name : String) (logs : List LogEntry) : List (Option String) :=
  (((logs.flatMap (·.logsets_info)).filter
      (fun ls => pyLower (ls.lsName.getD "") == pyLower name)).map (·.lsId)).dedup

/-- `Rapid7Client.get_logset_id_by_name` (client.py lines 289-321), modelled
on the cache-miss path: zero distinct matching ids raise the not-found
`QueryError`, more than one the ambiguity `QueryError`, otherwise the single
id is returned. -/
def get_logset_id_by_name (name : String) (logs : List LogEntry) :
    Except LookupError (Option String) :=
  let ids := logsetMatches name logs
  if ids.isEmpty then .error (.notFound name)
  else if 1 < ids.length then .error (.ambiguous name)
  else .ok (ids.headD none)

/-- The `events` contribution of one page: its `events` array, or nothing
when the key is absent. -/
def pageEvents {ε σ : Type} (p : Page ε σ) : List ε := p.events.getD []

/-- The `statistics` update of one page: overwrite when the key is present
(with whatever value, `null` included), keep otherwise. -/
def statStep {ε σ : Type} (a : Option σ) (p : Page ε σ) : Option σ :=
  match p.statistics with
  | none => a
  | some v => v

theorem mergePage_events {ε σ : Type} (acc : Accum ε σ) (p : Page ε σ) :
    (mergePage acc p).events = acc.events ++ pageEvents p := rfl

theorem mergePage_statistics {ε σ : Type} (acc : Accum ε σ) (p : Page ε σ) :
    (mergePage acc p).statistics = statStep acc.statistics p := rfl

theorem phase2_events {ε σ : Type} (k : Option Int) (resps : List (Page ε σ)) :
    ∀ (acc : Accum ε σ) (data : Page ε σ) (pages : Nat),
      (phase2 k acc data pages resps).acc.events
        = acc.events ++ ((phase2 k acc data pages resps).merged.map pageEvents).flatten := by
  induction resps with
  | nil =>
    intro acc data pages
    by_cases hb : phase2Cond k pages data <;> simp [phase2, hb]
  | cons p rest ih =>
    intro acc data pages
    by_cases hb : phase2Cond k pages data
    · by_cases hs : statusOk p
      · simp only [phase2, hb, hs, if_true]
        simp only [List.map_cons, List.flatten_cons]
        rw [ih (mergePage acc p) p (pages + 1), mergePage_events, List.append_assoc]
      · simp [phase2, hb, hs]
    · simp [phase2, hb]

theorem phase2_statistics {ε σ : Type} (k : Option Int) (resps : List (Page ε σ)) :
    ∀ (acc : Accum ε σ) (data : Page ε σ) (pages : Nat),
      (phase2 k acc data pages resps).acc.statistics
        = (phase2 k acc data pages resps).merged.foldl statStep acc.statistics := by
  induction resps with
  | nil =>
    intro acc data pages
    by_cases hb : phase2Cond k pages data <;> simp [phase2, hb]
  | cons p rest ih =>
    intro acc data pages
    by_cases hb : phase2Cond k pages data
    · by_cases hs : statusOk p
      · simp only [phase2, hb, hs, if_true]
        simp only [List.foldl_cons]
        rw [ih (mergePage acc p) p (pages + 1), mergePage_statistics]
      · simp [phase2, hb, hs]
    · simp [phase2, hb]

theorem phase2_err {ε σ : Type} (k : Option Int) (resps : List (Page ε σ)) :
    ∀ (acc : Accum ε σ) (data : Page ε σ) (pages : Nat) (q : Page ε σ),
      (phase2 k acc data pages resps).err = some q →
        statusOk q = false ∧
        ∃ pre, (phase2 k acc data pages resps).consumed = pre ++ [q] := by
  induction resps with
  | nil =>
    intro acc data pages q h
    by_cases hb : phase2Cond k pages data <;> simp [phase2, hb] at h
  | cons p rest ih =>
    intro acc data pages q h
    by_cases hb : phase2Cond k pages data
    · by_cases hs : statusOk p
      · simp only [phase2, hb, hs, if_true] at h ⊢
        obtain ⟨h1, pre, h2⟩ := ih (mergePage acc p) p (pages + 1) q h
        exact ⟨h1, p :: pre, by simp [h2]⟩
      · rw [Bool.not_eq_true] at hs
        simp [phase2, hb, hs] at h ⊢
        subst h
        exact ⟨hs, [], rfl⟩
    · simp [phase2, hb] at h

theorem phase2_ok_status {ε σ : Type} (k : Option Int) (resps : List (Page ε σ)) :
    ∀ (acc : Accum ε σ) (data : Page ε σ) (pages : Nat),
      (phase2 k acc data pages resps).err = none →
        ∀ p ∈ (phase2 k acc data pages resps).consumed, statusOk p = true := by
  induction resps with
  | nil =>
    intro acc data pages _ p hp
    by_cases hb : phase2Cond k pages data <;> simp [phase2, hb] at hp
  | cons p rest ih =>
    intro acc data pages h q hq
    by_cases hb : phase2Cond k pages data
    · by_cases hs : statusOk p
      · simp only [phase2, hb, hs, if_true] at h hq
        simp only [List.mem_cons] at hq
        rcases hq with rfl | hq
        · exact hs
        · exact ih (mergePage acc p) p (pages + 1) h q hq
      · simp [phase2, hb, hs] at h
    · simp [phase2, hb] at hq

theorem phase2_budget {ε σ : Type} (resps : List (Page ε σ)) :
    ∀ (kv : Int) (acc : Accum ε σ) (data : Page ε σ) (pages : Nat),
      (pages : Int) ≤ kv →
        (((phase2 (some kv) acc data pages resps).pages : Int)) ≤ kv := by
  induction resps with
  | nil =>
    intro kv acc data pages hp
    by_cases hb : phase2Cond (some kv) pages data <;> simp [phase2, hb, hp]
  | cons p rest ih =>
    intro kv acc data pages hp
    by_cases hb : phase2Cond (some kv) pages data
    · have hlt : (pages : Int) < kv := by
        have := hb
        simp only [phase2Cond, Bool.and_eq_true, decide_eq_true_eq] at this
        exact this.2
      by_cases hs : statusOk p
      · simp only [phase2, hb, hs, if_true]
        exact ih kv (mergePage acc p) p (pages + 1) (by push_cast; omega)
      · simp only [phase2, hb, hs, if_true, if_false]
        push_cast
        omega
    · simp [phase2, hb, hp]

theorem phase2_drain {ε σ : Type} (resps : List (Page ε σ)) :
    ∀ (acc : Accum ε σ) (data : Page ε σ) (pages : Nat),
      (phase2 none acc data pages resps).err = none →
        (phase2 none acc data pages resps).fuelOut = false →
        (phase2 none acc data pages resps).data.links = [] := by
  induction resps with
  | nil =>
    intro acc data pages _ hf
    by_cases hb : phase2Cond none pages data
    · simp [phase2, hb] at hf
    · rw [Bool.not_eq_true] at hb
      have hl : data.links = [] := by
        simpa [phase2Cond, List.isEmpty_iff] using hb
      simp [phase2, hb, hl]
  | cons p rest ih =>
    intro acc data pages he hf
    by_cases hb : phase2Cond none pages data
    · by_cases hs : statusOk p
      · simp only [phase2, hb, hs, if_true] at he hf ⊢
        exact ih (mergePage acc p) p (pages + 1) he hf
      · simp [phase2, hb, hs] at he
    · rw [Bool.not_eq_true] at hb
      have hl : data.links = [] := by
        simpa [phase2Cond, List.isEmpty_iff] using hb
      simp [phase2, hb, hl]

theorem phase2_closed {ε σ : Type} (resps : List (Page ε σ))
    (kv : Int) (acc : Accum ε σ) (data : Page ε σ) (pages : Nat)
    (hk : kv ≤ (pages : Int)) :
    phase2 (some kv) acc data pages resps
      = ⟨acc, data, [], [], pages, [], [], none, false⟩ := by
  have hb : phase2Cond (some kv) pages data = false := by
    simp only [phase2Cond]
    have : ¬ ((pages : Int) < kv) := by omega
    simp [this]
  cases resps <;> simp [phase2, hb]

theorem phase2Show_fst {ε σ : Type} (k : Option Int) (resps : List (Page ε σ)) :
    ∀ (acc : Accum ε σ) (data : Page ε σ) (pages : Nat),
      (phase2Show k acc data pages resps).1 = phase2 k acc data pages resps := by
  induction resps with
  | nil =>
    intro acc data pages
    by_cases hb : phase2Cond k pages data <;> simp [phase2, phase2Show, hb]
  | cons p rest ih =>
    intro acc data pages
    by_cases hb : phase2Cond k pages data
    · by_cases hs : statusOk p
      · simp [phase2, phase2Show, hb, hs, ih (mergePage acc p) p (pages + 1)]
      · simp [phase2, phase2Show, hb, hs]
    · simp [phase2, phase2Show, hb]

theorem mkRet_ne_apiError {ε σ : Type} (cfg : Config σ) (a : Accum ε σ)
    (ld : Option (Page ε σ)) (b : Bool) (q : Page ε σ) :
    mkRet cfg a ld ≠ Outcome.apiError b q := by
  unfold mkRet
  by_cases h : accTruthy cfg a
  · simp [h]
  · cases ld <;> simp [h]

theorem mkRet_ne_outOfFuel {ε σ : Type} (cfg : Config σ) (a : Accum ε σ)
    (ld : Option (Page ε σ)) :
    mkRet cfg a ld ≠ Outcome.outOfFuel := by
  unfold mkRet
  by_cases h : accTruthy cfg a
  · simp [h]
  · cases ld <;> simp [h]


theorem phase1_events {ε σ : Type} (cfg : Config σ) (clocks : List Int) :
    ∀ (pollUrl : String) (lastData : Option (Page ε σ)) (resps : List (Page ε σ)),
      (phase1 cfg pollUrl lastData clocks resps).acc.events
        = ((phase1 cfg pollUrl lastData clocks resps).merged.map pageEvents).flatten := by
  induction clocks with
  | nil =>
    intro pollUrl lastData resps
    simp [phase1, emptyAccum]
  | cons c clocks ih =>
    intro pollUrl lastData resps
    by_cases ht : cfg.queryTimeout < c
    · simp [phase1, ht, emptyAccum]
    · cases resps with
      | nil => simp [phase1, ht, emptyAccum]
      | cons p rest =>
        by_cases hs : statusOk p
        · by_cases hsp : stillProcessing p
          · simp only [phase1, ht, hs, hsp, if_true, Bool.false_eq_true, if_false]
            exact ih _ (some p) rest
          · simp only [phase1, ht, hs, hsp, if_true, Bool.false_eq_true, if_false]
            simp only [List.map_cons, List.flatten_cons]
            rw [phase2_events, mergePage_events]
            simp [emptyAccum]
        · simp [phase1, ht, hs, emptyAccum]

theorem phase1_statistics {ε σ : Type} (cfg : Config σ) (clocks : List Int) :
    ∀ (pollUrl : String) (lastData : Option (Page ε σ)) (resps : List (Page ε σ)),
      (phase1 cfg pollUrl lastData clocks resps).acc.statistics
        = (phase1 cfg pollUrl lastData clocks resps).merged.foldl statStep none := by
  induction clocks with
  | nil =>
    intro pollUrl lastData resps
    simp [phase1, emptyAccum]
  | cons c clocks ih =>
    intro pollUrl lastData resps
    by_cases ht : cfg.queryTimeout < c
    · simp [phase1, ht, emptyAccum]
    · cases resps with
      | nil => simp [phase1, ht, emptyAccum]
      | cons p rest =>
        by_cases hs : statusOk p
        · by_cases hsp : stillProcessing p
          · simp only [phase1, ht, hs, hsp, if_true, Bool.false_eq_true, if_false]
            exact ih _ (some p) rest
          · simp only [phase1, ht, hs, hsp, if_true, Bool.false_eq_true, if_false]
            simp only [List.foldl_cons]
            rw [phase2_statistics, mergePage_statistics]
            rfl
        · simp [phase1, ht, hs, emptyAccum]

theorem phase1_ok_status {ε σ : Type} (cfg : Config σ) (clocks : List Int) :
    ∀ (pollUrl : String) (lastData : Option (Page ε σ)) (resps : List (Page ε σ))
      (v : RetVal ε σ),
      (phase1 cfg pollUrl lastData clocks resps).outcome = .ok v →
        ∀ q ∈ (phase1 cfg pollUrl lastData clocks resps).consumed, statusOk q = true := by
  induction clocks with
  | nil =>
    intro pollUrl lastData resps v _ q hq
    simp [phase1] at hq
  | cons c clocks ih =>
    intro pollUrl lastData resps v ho q hq
    by_cases ht : cfg.queryTimeout < c
    · simp [phase1, ht] at hq
    · cases resps with
      | nil => simp [phase1, ht] at hq
      | cons p rest =>
        by_cases hs : statusOk p
        · by_cases hsp : stillProcessing p
          · simp only [phase1, ht, hs, hsp, if_true, Bool.false_eq_true, if_false] at ho hq
            simp only [List.mem_cons] at hq
            rcases hq with rfl | hq
            · exact hs
            · exact ih _ (some p) rest v ho q hq
          · simp only [phase1, ht, hs, hsp, if_true, Bool.false_eq_true, if_false] at ho hq
            simp only [List.mem_cons] at hq
            rcases hq with rfl | hq
            · exact hs
            · rcases he : (phase2 cfg.maxResultPages (mergePage emptyAccum p) p 0 rest).err with _ | q'
              · exact phase2_ok_status cfg.maxResultPages rest
                  (mergePage emptyAccum p) p 0 he q hq
              · simp [he] at ho
        · rw [Bool.not_eq_true] at hs
          simp only [phase1, ht, hs, Bool.false_eq_true, if_false] at ho
          simp at ho

theorem phase1_err {ε σ : Type} (cfg : Config σ) (clocks : List Int) :
    ∀ (pollUrl : String) (lastData : Option (Page ε σ)) (resps : List (Page ε σ))
      (b : Bool) (q : Page ε σ),
      (phase1 cfg pollUrl lastData clocks resps).outcome = .apiError b q →
        statusOk q = false ∧
        ∃ pre, (phase1 cfg pollUrl lastData clocks resps).consumed = pre ++ [q] := by
  induction clocks with
  | nil =>
    intro pollUrl lastData resps b q h
    simp [phase1] at h
  | cons c clocks ih =>
    intro pollUrl lastData resps b q h
    by_cases ht : cfg.queryTimeout < c
    · simp only [phase1, ht, if_true] at h
      exact absurd h (mkRet_ne_apiError cfg emptyAccum lastData b q)
    · cases resps with
      | nil => simp [phase1, ht] at h
      | cons p rest =>
        by_cases hs : statusOk p
        · by_cases hsp : stillProcessing p
          · simp only [phase1, ht, hs, hsp, if_true, Bool.false_eq_true, if_false] at h ⊢
            obtain ⟨h1, pre, h2⟩ := ih _ (some p) rest b q h
            exact ⟨h1, p :: pre, by rw [h2, List.cons_append]⟩
          · simp only [phase1, ht, hs, hsp, if_true, Bool.false_eq_true, if_false] at h ⊢
            rcases he : (phase2 cfg.maxResultPages (mergePage emptyAccum p) p 0 rest).err with _ | q'
            · simp only [he] at h
              by_cases hf : (phase2 cfg.maxResultPages (mergePage emptyAccum p) p 0 rest).fuelOut
              · simp [hf] at h
              · rw [Bool.not_eq_true] at hf
                simp only [hf, Bool.false_eq_true, if_false] at h
                exact absurd h (mkRet_ne_apiError cfg _ _ b q)
            · simp only [he] at h
              have hq : q' = q := by
                cases h
                rfl
              subst hq
              obtain ⟨h1, pre, h2⟩ :=
                phase2_err cfg.maxResultPages rest (mergePage emptyAccum p) p 0 q' he
              exact ⟨h1, p :: pre, by rw [h2, List.cons_append]⟩
        · rw [Bool.not_eq_true] at hs
          simp only [phase1, ht, hs, Bool.false_eq_true, if_false] at h ⊢
          simp only [Outcome.apiError.injEq] at h
          refine ⟨h.2 ▸ hs, [], ?_⟩
          simp [h.2]
theorem phase1_budget {ε σ : Type} (cfg : Config σ) (clocks : List Int) :
    ∀ (pollUrl : String) (lastData : Option (Page ε σ)) (resps : List (Page ε σ))
      (kv : Int),
      cfg.maxResultPages = some kv → 0 ≤ kv →
        ((phase1 cfg pollUrl lastData clocks resps).phase2Fetches : Int) ≤ kv := by
  induction clocks with
  | nil =>
    intro pollUrl lastData resps kv _ h0
    simpa [phase1] using h0
  | cons c clocks ih =>
    intro pollUrl lastData resps kv hk h0
    by_cases ht : cfg.queryTimeout < c
    · simpa [phase1, ht] using h0
    · cases resps with
      | nil => simpa [phase1, ht] using h0
      | cons p rest =>
        by_cases hs : statusOk p
        · by_cases hsp : stillProcessing p
          · simp only [phase1, ht, hs, hsp, if_true, Bool.false_eq_true, if_false]
            exact ih _ (some p) rest kv hk h0
          · simp only [phase1, ht, hs, hsp, if_true, Bool.false_eq_true, if_false]
            rw [hk]
            exact phase2_budget rest kv (mergePage emptyAccum p) p 0 (by exact_mod_cast h0)
        · simpa [phase1, ht, hs] using h0

theorem phase1_drain {ε σ : Type} (cfg : Config σ) (clocks : List Int) :
    ∀ (pollUrl : String) (lastData : Option (Page ε σ)) (resps : List (Page ε σ))
      (v : RetVal ε σ) (d : Page ε σ),
      cfg.maxResultPages = none →
        (phase1 cfg pollUrl lastData clocks resps).outcome = .ok v →
        (phase1 cfg pollUrl lastData clocks resps).completionPage.isSome = true →
        (phase1 cfg pollUrl lastData clocks resps).finalData = some d →
        d.links = [] := by
  induction clocks with
  | nil =>
    intro pollUrl lastData resps v d _ ho _ _
    simp [phase1] at ho
  | cons c clocks ih =>
    intro pollUrl lastData resps v d hk ho hc hd
    by_cases ht : cfg.queryTimeout < c
    · simp [phase1, ht] at hc
    · cases resps with
      | nil => simp [phase1, ht] at ho
      | cons p rest =>
        by_cases hs : statusOk p
        · by_cases hsp : stillProcessing p
          · simp only [phase1, ht, hs, hsp, if_true, Bool.false_eq_true, if_false] at ho hc hd
            exact ih _ (some p) rest v d hk ho hc hd
          · simp only [phase1, ht, hs, hsp, if_true, Bool.false_eq_true, if_false] at ho hc hd
            rcases he : (phase2 cfg.maxResultPages (mergePage emptyAccum p) p 0 rest).err with _ | q'
            · by_cases hf : (phase2 cfg.maxResultPages (mergePage emptyAccum p) p 0 rest).fuelOut
              · simp [he, hf] at ho
              · rw [Bool.not_eq_true] at hf
                have hdl : (phase2 cfg.maxResultPages (mergePage emptyAccum p) p 0 rest).data.links = [] := by
                  rw [hk] at he hf ⊢
                  exact phase2_drain rest (mergePage emptyAccum p) p 0 he hf
                have hd' : d = (phase2 cfg.maxResultPages (mergePage emptyAccum p) p 0 rest).data := by
                  cases hd
                  rfl
                rw [hd']
                exact hdl
            · simp [he] at ho
        · rw [Bool.not_eq_true] at hs
          simp only [phase1, ht, hs, Bool.false_eq_true, if_false] at ho
          simp at ho

theorem phase1_timedOut {ε σ : Type} (cfg : Config σ) (clocks : List Int) :
    ∀ (pollUrl : String) (lastData : Option (Page ε σ)) (resps : List (Page ε σ)),
      (phase1 cfg pollUrl lastData clocks resps).timedOut = true →
        (phase1 cfg pollUrl lastData clocks resps).phase2Fetches = 0 ∧
        (phase1 cfg pollUrl lastData clocks resps).completionPage = none ∧
        (phase1 cfg pollUrl lastData clocks resps).merged = [] := by
  induction clocks with
  | nil =>
    intro pollUrl lastData resps h
    simp [phase1] at h
  | cons c clocks ih =>
    intro pollUrl lastData resps h
    by_cases ht : cfg.queryTimeout < c
    · simp [phase1, ht]
    · cases resps with
      | nil => simp [phase1, ht] at h
      | cons p rest =>
        by_cases hs : statusOk p
        · by_cases hsp : stillProcessing p
          · simp only [phase1, ht, hs, hsp, if_true, Bool.false_eq_true, if_false] at h ⊢
            exact ih _ (some p) rest h
          · simp only [phase1, ht, hs, hsp, if_true, Bool.false_eq_true, if_false] at h
        · rw [Bool.not_eq_true] at hs
          simp only [phase1, ht, hs, Bool.false_eq_true, if_false] at h

theorem phase1_zero_budget {ε σ : Type} (cfg : Config σ) (clocks : List Int) :
    ∀ (pollUrl : String) (lastData : Option (Page ε σ)) (resps : List (Page ε σ))
      (kv : Int),
      cfg.maxResultPages = some kv → kv ≤ 0 →
        (phase1 cfg pollUrl lastData clocks resps).phase2Fetches = 0 ∧
        (phase1 cfg pollUrl lastData clocks resps).merged.length ≤ 1 := by
  induction clocks with
  | nil =>
    intro pollUrl lastData resps kv _ _
    simp [phase1]
  | cons c clocks ih =>
    intro pollUrl lastData resps kv hk h0
    by_cases ht : cfg.queryTimeout < c
    · simp [phase1, ht]
    · cases resps with
      | nil => simp [phase1, ht]
      | cons p rest =>
        by_cases hs : statusOk p
        · by_cases hsp : stillProcessing p
          · simp only [phase1, ht, hs, hsp, if_true, Bool.false_eq_true, if_false]
            exact ih _ (some p) rest kv hk h0
          · simp only [phase1, ht, hs, hsp, if_true, Bool.false_eq_true, if_false]
            rw [hk, phase2_closed rest kv (mergePage emptyAccum p) p 0 (by exact_mod_cast h0)]
            simp
        · simp [phase1, ht, hs]

theorem phase1_completion {ε σ : Type} (cfg : Config σ) (clocks : List Int) :
    ∀ (pollUrl : String) (lastData : Option (Page ε σ)) (resps : List (Page ε σ))
      (p : Page ε σ),
      (phase1 cfg pollUrl lastData clocks resps).completionPage = some p →
        stillProcessing p = false ∧ statusOk p = true := by
  induction clocks with
  | nil =>
    intro pollUrl lastData resps p h
    simp [phase1] at h
  | cons c clocks ih =>
    intro pollUrl lastData resps p h
    by_cases ht : cfg.queryTimeout < c
    · simp [phase1, ht] at h
    · cases resps with
      | nil => simp [phase1, ht] at h
      | cons p0 rest =>
        by_cases hs : statusOk p0
        · by_cases hsp : stillProcessing p0
          · simp only [phase1, ht, hs, hsp, if_true, Bool.false_eq_true, if_false] at h
            exact ih _ (some p0) rest p h
          · simp only [phase1, ht, hs, hsp, if_true, Bool.false_eq_true, if_false] at h
            have : p0 = p := by
              cases h
              rfl
            subst this
            rw [Bool.not_eq_true] at hsp
            exact ⟨hsp, hs⟩
        · rw [Bool.not_eq_true] at hs
          simp only [phase1, ht, hs, Bool.false_eq_true, if_false] at h
          simp at h

theorem phase1Show_fst {ε σ : Type} (cfg : Config σ) (clocks : List Int) :
    ∀ (pollUrl : String) (lastData : Option (Page ε σ)) (resps : List (Page ε σ)),
      (phase1Show cfg pollUrl lastData clocks resps).1
        = phase1 cfg pollUrl lastData clocks resps := by
  induction clocks with
  | nil =>
    intro pollUrl lastData resps
    simp [phase1, phase1Show]
  | cons c clocks ih =>
    intro pollUrl lastData resps
    by_cases ht : cfg.queryTimeout < c
    · simp [phase1, phase1Show, ht]
    · cases resps with
      | nil => simp [phase1, phase1Show, ht]
      | cons p rest =>
        by_cases hs : statusOk p
        · by_cases hsp : stillProcessing p
          · simp only [phase1, phase1Show, ht, hs, hsp, if_true, Bool.false_eq_true, if_false]
            rw [ih _ (some p) rest]
          · simp only [phase1, phase1Show, ht, hs, hsp, if_true, Bool.false_eq_true, if_false]
            rw [phase2Show_fst cfg.maxResultPages rest (mergePage emptyAccum p) p 0]
        · simp [phase1, phase1Show, ht, hs]

theorem poll_query_run {ε σ : Type} (cfg : Config σ) (sp : Bool) (clocks : List Int)
    (resps : List (Page ε σ)) :
    (poll_query cfg sp clocks resps).1 = poll_query_plain_branch cfg clocks resps := by
  cases sp with
  | false => rfl
  | true =>
    simp [poll_query, poll_query_progress_branch, poll_query_plain_branch,
      phase1Show_fst]

theorem mkRet_acc {ε σ : Type} (cfg : Config σ) (x : Accum ε σ)
    (ld : Option (Page ε σ)) (a : Accum ε σ)
    (h : mkRet cfg x ld = Outcome.ok (RetVal.acc a)) : a = x := by
  unfold mkRet at h
  by_cases hT : accTruthy cfg x
  · simp only [hT, if_true, Outcome.ok.injEq, RetVal.acc.injEq] at h
    exact h.symm
  · rw [Bool.not_eq_true] at hT
    cases ld with
    | none => simp [hT] at h
    | some d => simp [hT] at h

theorem phase1_ret_acc {ε σ : Type} (cfg : Config σ) (clocks : List Int) :
    ∀ (pollUrl : String) (lastData : Option (Page ε σ)) (resps : List (Page ε σ))
      (a : Accum ε σ),
      (phase1 cfg pollUrl lastData clocks resps).outcome = Outcome.ok (RetVal.acc a) →
        a = (phase1 cfg pollUrl lastData clocks resps).acc := by
  induction clocks with
  | nil =>
    intro pollUrl lastData resps a h
    simp [phase1] at h
  | cons c clocks ih =>
    intro pollUrl lastData resps a h
    by_cases ht : cfg.queryTimeout < c
    · simp only [phase1, ht, if_true] at h ⊢
      exact mkRet_acc cfg emptyAccum lastData a h
    · cases resps with
      | nil => simp [phase1, ht] at h
      | cons p rest =>
        by_cases hs : statusOk p
        · by_cases hsp : stillProcessing p
          · simp only [phase1, ht, hs, hsp, if_true, Bool.false_eq_true, if_false] at h ⊢
            exact ih _ (some p) rest a h
          · simp only [phase1, ht, hs, hsp, if_true, Bool.false_eq_true, if_false] at h ⊢
            rcases he : (phase2 cfg.maxResultPages (mergePage emptyAccum p) p 0 rest).err with _ | q'
            · simp only [he] at h
              by_cases hf : (phase2 cfg.maxResultPages (mergePage emptyAccum p) p 0 rest).fuelOut
              · simp [hf] at h
              · rw [Bool.not_eq_true] at hf
                simp only [hf, Bool.false_eq_true, if_false] at h
                exact mkRet_acc cfg _ _ a h
            · simp [he] at h
        · rw [Bool.not_eq_true] at hs
          simp only [phase1, ht, hs, Bool.false_eq_true, if_false] at h
          simp at h

/-- Truthiness function used by the concrete Nat-payload test fixtures:
a Python number is truthy when non-zero. -/
def natTruthy : Nat → Bool := fun s => s != 0

/-- Fixture for C1: quiet defaults, no page budget. -/
def cfgC1 : Config Nat :=
  { url := "u", maxResultPages := none, queryTimeout := 300, sTruthy := natTruthy }

/-- Fixture trace for C1: one still-processing poll, a completion page with
two events and a link, and one further page with one event. -/
def trC1 : List (Page Nat Nat) :=
  [⟨202, some 40, none, none, ["l1"], ""⟩,
   ⟨200, some 100, some [1, 2], none, ["p2"], ""⟩,
   ⟨200, none, some [3], none, [], ""⟩]

/-- Claim C1: over any run of `poll_query`, the accumulated `events` equal
the concatenation, in fetch order, of the `events` arrays of the merged
pages (the Phase-1 completion page followed by the Phase-2 pages; pages
lacking an `events` key contribute nothing), with no re-sorting and no
deduplication; and whenever the accumulator is what the call returns, its
`events` field is that concatenation. -/
theorem events_are_concat_in_fetch_order {ε σ : Type} (cfg : Config σ) (sp : Bool)
    (clocks : List Int) (resps : List (Page ε σ)) :
    (poll_query cfg sp clocks resps).1.acc.events
      = (((poll_query cfg sp clocks resps).1.merged).map pageEvents).flatten
    ∧ ∀ a, (poll_query cfg sp clocks resps).1.outcome = Outcome.ok (RetVal.acc a) →
        a.events = (((poll_query cfg sp clocks resps).1.merged).map pageEvents).flatten := by
  rw [poll_query_run]
  unfold poll_query_plain_branch
  refine ⟨phase1_events cfg clocks cfg.url none resps, ?_⟩
  intro a ha
  rw [phase1_ret_acc cfg clocks cfg.url none resps a ha]
  exact phase1_events cfg clocks cfg.url none resps

/-- Witness for C1 at the Scenario-A fixture: the returned accumulator's
events are the concatenation of the completion page's and the second
page's events. -/
theorem events_are_concat_in_fetch_order_witness :
    Accum.events { events := [1, 2, 3], statistics := (none : Option Nat) }
      = (((poll_query cfgC1 true [0, 2, 4] trC1).1.merged).map pageEvents).flatten :=
  (events_are_concat_in_fetch_order cfgC1 true [0, 2, 4] trC1).2
    { events := [1, 2, 3], statistics := none } (by decide)

/-- Fixture for C2, bounded part: budget of two pages. -/
def cfgC2a : Config Nat :=
  { url := "u", maxResultPages := some 2, queryTimeout := 300, sTruthy := natTruthy }

/-- Fixture trace for C2, bounded part: a links chain longer than the budget. -/
def trC2a : List (Page Nat Nat) :=
  [⟨200, none, some [1], none, ["a"], ""⟩,
   ⟨200, none, some [2], none, ["b"], ""⟩,
   ⟨200, none, some [3], none, ["c"], ""⟩,
   ⟨200, none, some [4], none, ["d"], ""⟩]

/-- Fixture for C2, unbounded part: no page budget. -/
def cfgC2b : Config Nat :=
  { url := "u", maxResultPages := none, queryTimeout := 300, sTruthy := natTruthy }

/-- Fixture trace for C2, unbounded part: the chain ends at the second page. -/
def trC2b : List (Page Nat Nat) :=
  [⟨200, none, some [1], none, ["a"], ""⟩,
   ⟨200, none, some [2], none, [], ""⟩]

/-- The last page of `trC2b`. -/
def lastC2b : Page Nat Nat := ⟨200, none, some [2], none, [], ""⟩

/-- Claim C2: with `max_result_pages = k > 0` the Phase-2 loop performs at
most `k` fetches beyond the completion page, however long the links chain;
with `max_result_pages = None`, a completed run can only return once a page
with an absent or empty `links` array has arrived. -/
theorem page_budget_enforcement {ε σ : Type} (cfg : Config σ) (sp : Bool)
    (clocks : List Int) (resps : List (Page ε σ)) :
    (∀ kv : Int, cfg.maxResultPages = some kv → 0 < kv →
        (((poll_query cfg sp clocks resps).1.phase2Fetches : Int)) ≤ kv)
    ∧ (cfg.maxResultPages = none →
        ∀ (v : RetVal ε σ) (d : Page ε σ),
          (poll_query cfg sp clocks resps).1.outcome = Outcome.ok v →
          (poll_query cfg sp clocks resps).1.completionPage.isSome = true →
          (poll_query cfg sp clocks resps).1.finalData = some d →
          d.links = []) := by
  rw [poll_query_run]
  unfold poll_query_plain_branch
  constructor
  · intro kv hk h0
    exact phase1_budget cfg clocks cfg.url none resps kv hk (le_of_lt h0)
  · intro hk v d ho hc hd
    exact phase1_drain cfg clocks cfg.url none resps v d hk ho hc hd

/-- Witness for C2: the budget-2 run stops at two Phase-2 fetches despite a
longer chain, and the unbounded run's final page has no links. -/
theorem page_budget_enforcement_witness :
    (((poll_query cfgC2a true [0] trC2a).1.phase2Fetches : Int)) ≤ 2
    ∧ lastC2b.links = [] := by
  constructor
  · exact (page_budget_enforcement cfgC2a true [0] trC2a).1 2 rfl (by decide)
  · exact (page_budget_enforcement cfgC2b true [0] trC2b).2 rfl
      (RetVal.acc { events := [1, 2], statistics := none }) lastC2b
      (by decide) (by decide) (by decide)

/-- Fixture for C3: default timeout, no budget. -/
def cfgC3 : Config Nat :=
  { url := "u", maxResultPages := none, queryTimeout := 300, sTruthy := natTruthy }

/-- Claim C3 evaluated at the failing input: when the Phase-1 elapsed-time
check fires before any HTTP request has succeeded (first elapsed reading 301
against a 300-second budget), both branches of `poll_query` end in
`UnboundLocalError` on `data` at the return statement instead of returning
normally. -/
theorem timeout_before_any_fetch_raises_unbound :
    (poll_query cfgC3 false [301] ([] : List (Page Nat Nat))).1.timedOut = true
    ∧ (poll_query cfgC3 false [301] ([] : List (Page Nat Nat))).1.outcome
        = Outcome.unboundLocal
    ∧ (poll_query cfgC3 true [301] ([] : List (Page Nat Nat))).1.outcome
        = Outcome.unboundLocal := by
  decide

/-- The accumulation rule claim C4 states, written from the spec's words:
the last non-null `statistics` value seen across the merged pages, `null`
if no page carried a non-null value. -/
def lastNonNullStatistic {ε σ : Type} (pages : List (Page ε σ)) : Option σ :=
  pages.foldl
    (fun a p =>
      match p.statistics with
      | some (some v) => some v
      | _ => a)
    none

/-- Fixture for C4's counterexample. -/
def cfgC4 : Config Nat :=
  { url := "u", maxResultPages := none, queryTimeout := 300, sTruthy := natTruthy }

/-- Fixture trace for C4's counterexample: the completion page carries
non-null statistics `5`; the second page carries the `statistics` key with
an explicit JSON `null`. -/
def trC4 : List (Page Nat Nat) :=
  [⟨200, none, some [1], some (some 5), ["p2"], ""⟩,
   ⟨200, none, none, some none, [], ""⟩]

/-- Counterexample to C4 as stated: a later page carrying `statistics: null`
overwrites the earlier non-null value, so the returned accumulator's
`statistics` is `null` while the last non-null value seen is `5`. -/
theorem statistics_last_non_null_refuted :
    (poll_query cfgC4 false [0] trC4).1.outcome
        = Outcome.ok (RetVal.acc { events := [1], statistics := none })
    ∧ lastNonNullStatistic ((poll_query cfgC4 false [0] trC4).1.merged) = some 5
    ∧ (poll_query cfgC4 false [0] trC4).1.acc.statistics
        ≠ lastNonNullStatistic ((poll_query cfgC4 false [0] trC4).1.merged) := by
  decide

/-- Fixture for C4's amended-claim witness. -/
def cfgC4w : Config Nat :=
  { url := "u", maxResultPages := none, queryTimeout := 300, sTruthy := natTruthy }

/-- Fixture trace for C4's amended-claim witness: a single completion page
carrying statistics `7` and no events. -/
def trC4w : List (Page Nat Nat) := [⟨200, none, none, some (some 7), [], ""⟩]

/-- Claim C4 as amended: the accumulated `statistics` equals the value under
the `statistics` key of the last merged page carrying that key — an explicit
null included — and `null` when no merged page carries the key; values are
overwritten, never merged, so when pages `i < j` both carry non-null
statistics and no later page carries the key, the final value is page `j`'s.
This is the left fold of the per-page overwrite step. -/
theorem statistics_last_write_wins {ε σ : Type} (cfg : Config σ) (sp : Bool)
    (clocks : List Int) (resps : List (Page ε σ)) :
    (poll_query cfg sp clocks resps).1.acc.statistics
      = ((poll_query cfg sp clocks resps).1.merged).foldl statStep none
    ∧ ∀ a, (poll_query cfg sp clocks resps).1.outcome = Outcome.ok (RetVal.acc a) →
        a.statistics = ((poll_query cfg sp clocks resps).1.merged).foldl statStep none := by
  rw [poll_query_run]
  unfold poll_query_plain_branch
  refine ⟨phase1_statistics cfg clocks cfg.url none resps, ?_⟩
  intro a ha
  rw [phase1_ret_acc cfg clocks cfg.url none resps a ha]
  exact phase1_statistics cfg clocks cfg.url none resps

/-- Witness for the amended C4: the returned accumulator's statistics equal
the fold of the overwrite step over the merged pages. -/
theorem statistics_last_write_wins_witness :
    Accum.statistics { events := ([] : List Nat), statistics := some (7 : Nat) }
      = ((poll_query cfgC4w false [0] trC4w).1.merged).foldl statStep none :=
  (statistics_last_write_wins cfgC4w false [0] trC4w).2
    { events := [], statistics := some 7 } (by decide)

/-- Fixture for C5. -/
def cfgC5 : Config Nat :=
  { url := "u", maxResultPages := none, queryTimeout := 300, sTruthy := natTruthy }

/-- The completion page of the C5 fixture trace. -/
def pageC5 : Page Nat Nat := ⟨200, some 100, some [1], none, [], ""⟩

/-- Fixture trace for C5. -/
def trC5 : List (Page Nat Nat) := [pageC5]

/-- Claim C5: a page becomes the Phase-1 completion page only when its
status is 200 or its `progress` (defaulted to 100) is at least 100 — a
202 response with `progress < 100` is never treated as completion (its
data is not merged and Phase 2 is not entered, since merging and Phase 2
start from the completion page by construction); and the completion page
always passed the 200/202 status check. -/
theorem completion_needs_progress_or_200 {ε σ : Type} (cfg : Config σ) (sp : Bool)
    (clocks : List Int) (resps : List (Page ε σ)) (p : Page ε σ)
    (h : (poll_query cfg sp clocks resps).1.completionPage = some p) :
    (p.status = 200 ∨ 100 ≤ p.progress.getD 100)
    ∧ (p.status = 200 ∨ p.status = 202) := by
  rw [poll_query_run] at h
  unfold poll_query_plain_branch at h
  obtain ⟨hsp, hs⟩ := phase1_completion cfg clocks cfg.url none resps p h
  have hs' : p.status = 200 ∨ p.status = 202 := by
    simpa [statusOk, Bool.or_eq_true, beq_iff_eq] using hs
  refine ⟨?_, hs'⟩
  rcases hs' with h200 | h202
  · exact Or.inl h200
  · right
    by_contra hlt
    push_neg at hlt
    have hstill : stillProcessing p = true := by
      simp [stillProcessing, hlt, h202]
    simp [hstill] at hsp

/-- Witness for C5 at a concrete completed run. -/
theorem completion_needs_progress_or_200_witness :
    (pageC5.status = 200 ∨ 100 ≤ pageC5.progress.getD 100)
    ∧ (pageC5.status = 200 ∨ pageC5.status = 202) :=
  completion_needs_progress_or_200 cfgC5 false [0] trC5 pageC5 (by decide)

/-- Fixture for C6. -/
def cfgC6 : Config Nat :=
  { url := "u", maxResultPages := none, queryTimeout := 300, sTruthy := natTruthy }

/-- The offending page of the C6 fixture trace: HTTP 500. -/
def pageC6bad : Page Nat Nat := ⟨500, none, none, none, [], "boom"⟩

/-- Fixture trace for C6: a good completion page with a link, then a 500. -/
def trC6 : List (Page Nat Nat) :=
  [⟨200, none, some [1], none, ["p2"], ""⟩, pageC6bad]

/-- Claim C6: a normally returning run only ever consumed 200/202 responses;
and when the run raises the query-failure `APIError`, the error carries the
offending page (hence its status code and response body), that page's
status is neither 200 nor 202, it was the last page fetched (the call
aborted immediately), and no accumulated result is returned (the outcome is
the raised error, not a value). -/
theorem bad_status_aborts_poll {ε σ : Type} (cfg : Config σ) (sp : Bool)
    (clocks : List Int) (resps : List (Page ε σ)) :
    (∀ v, (poll_query cfg sp clocks resps).1.outcome = Outcome.ok v →
        ∀ q ∈ (poll_query cfg sp clocks resps).1.consumed,
          q.status = 200 ∨ q.status = 202)
    ∧ (∀ b q, (poll_query cfg sp clocks resps).1.outcome = Outcome.apiError b q →
        ¬(q.status = 200 ∨ q.status = 202)
        ∧ ∃ pre, (poll_query cfg sp clocks resps).1.consumed = pre ++ [q]) := by
  rw [poll_query_run]
  unfold poll_query_plain_branch
  constructor
  · intro v ho q hq
    have := phase1_ok_status cfg clocks cfg.url none resps v ho q hq
    simpa [statusOk, Bool.or_eq_true, beq_iff_eq] using this
  · intro b q h
    obtain ⟨h1, pre, h2⟩ := phase1_err cfg clocks cfg.url none resps b q h
    refine ⟨?_, pre, h2⟩
    intro hor
    have hok : statusOk q = true := by
      simp only [statusOk, Bool.or_eq_true, beq_iff_eq]
      exact hor
    simp [hok] at h1

/-- Witness for C6: the 500 page aborts the fixture run with the raised
error carrying that very page. -/
theorem bad_status_aborts_poll_witness :
    (poll_query cfgC6 false [0] trC6).1.outcome = Outcome.apiError true pageC6bad
    ∧ ¬(pageC6bad.status = 200 ∨ pageC6bad.status = 202) :=
  ⟨by decide,
    ((bad_status_aborts_poll cfgC6 false [0] trC6).2 true pageC6bad (by decide)).1⟩

/-- Fixture for C7: a ten-second budget. -/
def cfgC7 : Config Nat :=
  { url := "u", maxResultPages := none, queryTimeout := 10, sTruthy := natTruthy }

/-- Fixture trace for C7: a successfully fetched still-processing page whose
body has a non-empty links chain, with a further response available. -/
def trC7 : List (Page Nat Nat) :=
  [⟨202, some 40, none, none, ["l1"], ""⟩,
   ⟨200, none, some [7], none, [], ""⟩]

/-- Counterexample to C7 as stated: the timeout check fires after one
successful fetch whose body still holds a non-empty `links` array, another
response is available, the budget is unlimited — yet the Phase-2 pagination
loop performs zero fetches and nothing is merged, because the timeout
`break` exits the outer loop past the (nested) pagination loop. -/
theorem timeout_enters_phase2_refuted :
    (poll_query cfgC7 false [0, 20] trC7).1.timedOut = true
    ∧ (poll_query cfgC7 false [0, 20] trC7).1.consumed.length = 1
    ∧ ((poll_query cfgC7 false [0, 20] trC7).1.finalData).map Page.links
        = some ["l1"]
    ∧ (poll_query cfgC7 false [0, 20] trC7).1.phase2Fetches = 0
    ∧ (poll_query cfgC7 false [0, 20] trC7).1.merged = [] := by
  decide

/-- Claim C7 as amended: when the Phase-1 timeout check fires, `poll_query`
breaks out of the polling loop entirely — the Phase-2 pagination loop is not
entered, no page is ever merged, and no completion occurs; the call proceeds
directly to the return statement. -/
theorem timeout_skips_pagination {ε σ : Type} (cfg : Config σ) (sp : Bool)
    (clocks : List Int) (resps : List (Page ε σ))
    (h : (poll_query cfg sp clocks resps).1.timedOut = true) :
    (poll_query cfg sp clocks resps).1.phase2Fetches = 0
    ∧ (poll_query cfg sp clocks resps).1.completionPage = none
    ∧ (poll_query cfg sp clocks resps).1.merged = [] := by
  rw [poll_query_run] at h ⊢
  unfold poll_query_plain_branch at h ⊢
  exact phase1_timedOut cfg clocks cfg.url none resps h

/-- Witness for the amended C7 at the same fixture, progress branch. -/
theorem timeout_skips_pagination_witness :
    (poll_query cfgC7 true [0, 20] trC7).1.phase2Fetches = 0
    ∧ (poll_query cfgC7 true [0, 20] trC7).1.completionPage = none
    ∧ (poll_query cfgC7 true [0, 20] trC7).1.merged = [] :=
  timeout_skips_pagination cfgC7 true [0, 20] trC7 (by decide)

/-- Claim C8: for every configuration, clock trace and response trace, the
`show_progress=True` and `show_progress=False` branches of `poll_query`
produce identical runs — the same fetched URLs in the same order, the same
sleeps (2 between still-processing polls, 1 between page fetches), the same
merges, the same outcome; progress messages are the only difference. -/
theorem progress_and_quiet_paths_agree {ε σ : Type} (cfg : Config σ)
    (clocks : List Int) (resps : List (Page ε σ)) :
    (poll_query cfg true clocks resps).1 = (poll_query cfg false clocks resps).1 := by
  rw [poll_query_run, poll_query_run]

/-- Fixture for C9: a single log named Auth. -/
def logsC9a : List LogEntry :=
  [{ entryId := "A1", entryName := "Auth", logsets_info := [] }]

/-- Fixture for C9: two logs whose names collide case-insensitively. -/
def logsC9b : List LogEntry :=
  [{ entryId := "A1", entryName := "Auth", logsets_info := [] },
   { entryId := "A2", entryName := "auth", logsets_info := [] }]

/-- Claim C9: name-to-id resolution matches case-insensitively and follows
the zero/one/many contract for both `get_log_id_by_name` (over matching
log entries) and `get_logset_id_by_name` (over distinct matching logset
ids): zero matches raise not-found, more than one raise the
ambiguous-use-UUID error, exactly one is returned.  (In `query_logset` this
resolution runs before `poll_query` is invoked, so a raised error means no
poll is performed.) -/
theorem name_resolution_contract (name : String) (logs : List LogEntry) :
    (logMatches name logs = [] →
        get_log_id_by_name name logs = Except.error (LookupError.notFound name))
    ∧ (1 < (logMatches name logs).length →
        get_log_id_by_name name logs = Except.error (LookupError.ambiguous name))
    ∧ (∀ i, logMatches name logs = [i] →
        get_log_id_by_name name logs = Except.ok i)
    ∧ (∀ l ∈ logs, pyLower l.entryName = pyLower name →
        l.entryId ∈ logMatches name logs)
    ∧ (logsetMatches name logs = [] →
        get_logset_id_by_name name logs = Except.error (LookupError.notFound name))
    ∧ (1 < (logsetMatches name logs).length →
        get_logset_id_by_name name logs = Except.error (LookupError.ambiguous name))
    ∧ (∀ i, logsetMatches name logs = [i] →
        get_logset_id_by_name name logs = Except.ok i) := by
  refine ⟨?_, ?_, ?_, ?_, ?_, ?_, ?_⟩
  · intro h
    simp [get_log_id_by_name, h]
  · intro h
    have hne : logMatches name logs ≠ [] := by
      intro hh
      rw [hh] at h
      simp at h
    simp [get_log_id_by_name, List.isEmpty_iff, hne, h]
  · intro i h
    simp [get_log_id_by_name, h]
  · intro l hl he
    simp only [logMatches, List.mem_map, List.mem_filter]
    exact ⟨l, ⟨hl, by simp [he]⟩, rfl⟩
  · intro h
    simp [get_logset_id_by_name, h]
  · intro h
    have hne : logsetMatches name logs ≠ [] := by
      intro hh
      rw [hh] at h
      simp at h
    simp [get_logset_id_by_name, List.isEmpty_iff, hne, h]
  · intro i h
    simp [get_logset_id_by_name, h]

/-- Witness for C9 at the spec's Scenario C: a unique case-insensitive match
resolves; a case-insensitive duplicate is rejected as ambiguous. -/
theorem name_resolution_contract_witness :
    get_log_id_by_name "auth" logsC9a = Except.ok "A1"
    ∧ get_log_id_by_name "AUTH" logsC9b
        = Except.error (LookupError.ambiguous "AUTH") := by
  constructor
  · exact (name_resolution_contract "auth" logsC9a).2.2.1 "A1" (by decide)
  · exact (name_resolution_contract "AUTH" logsC9b).2.1 (by decide)

/-- Fixture for C10: a zero page budget. -/
def cfgC10 : Config Nat :=
  { url := "u", maxResultPages := some 0, queryTimeout := 300, sTruthy := natTruthy }

/-- Fixture trace for C10: the completion page has a links chain and a
further response is available. -/
def trC10 : List (Page Nat Nat) :=
  [⟨200, none, some [1], none, ["p2"], ""⟩,
   ⟨200, none, some [2], none, ["p3"], ""⟩]

/-- Claim C10: with `max_result_pages` zero or negative, the Phase-2 loop
condition `result_pages < max_result_pages` is false from the start, so the
loop performs zero page fetches (nothing beyond the completion page is ever
merged) — the value acts as a zero-page budget, not as unbounded. -/
theorem nonpositive_budget_fetches_nothing {ε σ : Type} (cfg : Config σ) (sp : Bool)
    (clocks : List Int) (resps : List (Page ε σ)) (kv : Int)
    (hk : cfg.maxResultPages = some kv) (h0 : kv ≤ 0) :
    (poll_query cfg sp clocks resps).1.phase2Fetches = 0
    ∧ (poll_query cfg sp clocks resps).1.merged.length ≤ 1 := by
  rw [poll_query_run]
  unfold poll_query_plain_branch
  exact phase1_zero_budget cfg clocks cfg.url none resps kv hk h0

/-- Witness for C10: the zero-budget fixture fetches no Phase-2 page despite
an available links chain. -/
theorem nonpositive_budget_fetches_nothing_witness :
    (poll_query cfgC10 false [0] trC10).1.phase2Fetches = 0
    ∧ (poll_query cfgC10 false [0] trC10).1.merged.length ≤ 1 :=
  nonpositive_budget_fetches_nothing cfgC10 false [0] trC10 0 rfl (by decide)
end R7
